import Mathlib

/-!
Verification development for the jChatSystem channel component
(`src/jchat_server/src/components/channel_component.cpp`).

The component keeps a list of channels; each channel has a name, an
enabled flag, a map from connection to user for the members ("Clients")
and one for the operators.  Connections are modelled as natural-number
identifiers (the C++ code keys the maps on `RemoteChatClient *`;
`std::map` enumerates in key order, which the number order mirrors).
User records are shared, read-mostly data.  Wire buffers are modelled as
lists of typed items; the numeric values of the message-type and
message-result enums do not appear in the sources (the checked-in
`channel_message_type.h` lists only `kChannelMessageType_Max`), so both
are modelled symbolically — no claim depends on the numeric encoding.
-/

namespace JChat

/-- A chat user record (`ChatUser`): the channel component only reads
`Username`, `Hostname`, `Identified` and `Enabled`. -/
structure ChatUser where
  Username : String
  Hostname : String
  Identified : Bool
  Enabled : Bool
deriving DecidableEq

/-- A chat channel (`ChatChannel`).  Its header is not among the checked-in
sources; the fields below are exactly those the component code uses. -/
structure ChatChannel where
  Name : String
  Enabled : Bool
  Clients : List (Nat × ChatUser)
  Operators : List (Nat × ChatUser)
deriving DecidableEq

/-- The channel component's state: the `channels_` vector. -/
structure ChannelComponentState where
  channels : List ChatChannel
deriving DecidableEq

/-- Message types used by the component (symbolic: the enum values are not
in the checked-in header). `Other` stands for any message type this
component does not recognize. -/
inductive ChannelMessageType where
  | JoinChannel
  | JoinChannel_Complete
  | LeaveChannel
  | LeaveChannel_Complete
  | Other
deriving DecidableEq

/-- Result codes written into reply and broadcast payloads. -/
inductive ChannelMessageResult where
  | Ok
  | ChannelCreated
  | NotIdentified
  | InvalidChannelName
  | AlreadyInChannel
  | NotInChannel
  | UserJoined
  | UserLeft
deriving DecidableEq

/-- One item of a `TypedBuffer`: a result code written with `WriteUInt16`,
a 32-bit count written with `WriteUInt32`, or a length-prefixed string. -/
inductive BufItem where
  | res (r : ChannelMessageResult)
  | u32 (n : Nat)
  | str (s : String)
deriving DecidableEq

/-- `WriteUInt32` of a size value (truncating to 32 bits). -/
def writeU32 (n : Nat) : BufItem := BufItem.u32 (n % 4294967296)

/-- One `SendUnicast` call: recipient connection, message type, payload. -/
structure Send where
  recipient : Nat
  msgType : ChannelMessageType
  buf : List BufItem
deriving DecidableEq

/-- `std::map::find` on a connection-keyed user map. -/
def mapFind : List (Nat × ChatUser) → Nat → Option ChatUser
  | [], _ => none
  | p :: rest, k => if p.1 = k then some p.2 else mapFind rest k

/-- `map.find(k) != map.end()` as a boolean. -/
def mapContains (m : List (Nat × ChatUser)) (k : Nat) : Bool :=
  (mapFind m k).isSome

/-- `std::map::operator[]` insertion, keeping entries in key order (the
enumeration order of `std::map`). -/
def mapInsert : List (Nat × ChatUser) → Nat → ChatUser → List (Nat × ChatUser)
  | [], k, v => [(k, v)]
  | p :: rest, k, v =>
    if k < p.1 then (k, v) :: p :: rest
    else if k = p.1 then (k, v) :: rest
    else p :: mapInsert rest k v

/-- `std::map::erase(k)`: removes the entry with key `k` if present
(a no-op otherwise). -/
def mapErase (m : List (Nat × ChatUser)) (k : Nat) : List (Nat × ChatUser) :=
  m.filter (fun p => !decide (p.1 = k))

/-- The entries of a member/operator map whose user record is enabled:
both the broadcast loops and the list-building loops filter on
`pair.second->Enabled`. -/
def enabledEntries (m : List (Nat × ChatUser)) : List (Nat × ChatUser) :=
  m.filter (fun p => p.2.Enabled)

/-- The `(username, hostname)` buffer items written for each enabled entry
of a member/operator map, in enumeration order. -/
def writeUserEntries (m : List (Nat × ChatUser)) : List BufItem :=
  (enabledEntries m).flatMap (fun p => [BufItem.str p.2.Username, BufItem.str p.2.Hostname])

/-- One `SendUnicast` per enabled entry of a member map, all carrying the
same payload (the broadcast loops of the component). -/
def broadcast (m : List (Nat × ChatUser)) (mt : ChannelMessageType)
    (buf : List BufItem) : List Send :=
  (enabledEntries m).map (fun p => ⟨p.1, mt, buf⟩)

/-- `String::Contains(channel_name, "#")`: the channel-name validity test. -/
def nameContainsHash (s : String) : Bool :=
  s.data.contains '#'

/-- The scan in `Handle`: does this channel match the requested name?
Only enabled channels are considered. -/
def chanMatches (name : String) (c : ChatChannel) : Bool :=
  c.Enabled && decide (c.Name = name)

/-- The lookup loop over `channels_`: the first enabled channel whose name
equals the requested name. -/
def findEnabledChannel (chs : List ChatChannel) (name : String) : Option ChatChannel :=
  chs.find? (chanMatches name)

/-- In-place mutation of the channel found by the lookup loop: replace the
first enabled channel with the given name. -/
def replaceFirstEnabled : List ChatChannel → String → ChatChannel → List ChatChannel
  | [], _, _ => []
  | c :: rest, name, c' =>
    if chanMatches name c then c' :: rest
    else c :: replaceFirstEnabled rest name c'

/-- Modelled from the spec: `chat_channel.h` is not among the checked-in
sources, so the initial `Enabled` value of a freshly constructed
`ChatChannel` is taken from the spec, which says `create` "atomically
appends a new enabled Channel". -/
def newChannelEnabled : Bool := true

/-- `ChannelComponent::Handle`.  Inputs beyond the component state:
the requesting connection, the message type, the result of reading the
channel-name string from the payload (`none` models `ReadString`
failure), whether the user-component lookup succeeded, and the result of
`GetChatUser` for the connection.  Returns the outcome, the new state,
and the list of `SendUnicast` calls issued before returning or dying:
`some b` is a normal return of `b`; `none` means the handler never
returns because the process crashes.

In the leave path the source guards the operator erase with
`Operators.find(&client) != Clients.end()` — iterators of two distinct
maps, which never compare equal in practice, so the erase runs
unconditionally; erasing an absent key is a no-op.  When the member
erase empties the channel, the source sets `Enabled = false` on the
shared channel object (line 359) — that mutation lands — but then nulls
the local handle (`chat_channel.reset()`, line 360) and dereferences it
(`chat_channel->ClientsMutex.unlock()`, line 375): the process dies
there, before the operator erase (lines 378-381) and before the `Ok`
reply (lines 385-389).  That subcase therefore yields outcome `none`
with the channel disabled, its operators untouched, and only the
`UserLeft` broadcasts sent. -/
def Handle (st : ChannelComponentState) (clientId : Nat)
    (messageType : ChannelMessageType) (decodedName : Option String)
    (userComponentOk : Bool) (chatUserLookup : Option ChatUser) :
    Option Bool × ChannelComponentState × List Send :=
  match messageType with
  | ChannelMessageType.JoinChannel =>
    match decodedName with
    | none => (some false, st, [])
    | some channel_name =>
      if !userComponentOk then (some false, st, [])
      else
        match chatUserLookup with
        | none => (some false, st, [])
        | some chat_user =>
          if !chat_user.Identified then
            (some true, st, [⟨clientId, ChannelMessageType.JoinChannel_Complete,
              [BufItem.res ChannelMessageResult.NotIdentified]⟩])
          else if !nameContainsHash channel_name then
            (some true, st, [⟨clientId, ChannelMessageType.JoinChannel_Complete,
              [BufItem.res ChannelMessageResult.InvalidChannelName]⟩])
          else
            match findEnabledChannel st.channels channel_name with
            | none =>
              (some true,
               ⟨st.channels ++ [⟨channel_name, newChannelEnabled,
                  [(clientId, chat_user)], [(clientId, chat_user)]⟩]⟩,
               [⟨clientId, ChannelMessageType.JoinChannel_Complete,
                 [BufItem.res ChannelMessageResult.ChannelCreated]⟩])
            | some chat_channel =>
              if mapContains chat_channel.Clients clientId then
                (some true, st, [⟨clientId, ChannelMessageType.JoinChannel_Complete,
                  [BufItem.res ChannelMessageResult.AlreadyInChannel]⟩])
              else
                let clients' := mapInsert chat_channel.Clients clientId chat_user
                let replyBuf : List BufItem :=
                  BufItem.res ChannelMessageResult.Ok
                    :: (writeU32 chat_channel.Operators.length
                          :: writeUserEntries chat_channel.Operators)
                    ++ (writeU32 clients'.length :: writeUserEntries clients')
                let joinedBuf : List BufItem :=
                  [BufItem.res ChannelMessageResult.UserJoined,
                   BufItem.str chat_user.Username, BufItem.str chat_user.Hostname]
                (some true,
                 ⟨replaceFirstEnabled st.channels channel_name
                    { chat_channel with Clients := clients' }⟩,
                 ⟨clientId, ChannelMessageType.JoinChannel_Complete, replyBuf⟩
                   :: broadcast clients' ChannelMessageType.JoinChannel joinedBuf)
  | ChannelMessageType.LeaveChannel =>
    match decodedName with
    | none => (some false, st, [])
    | some channel_name =>
      if !userComponentOk then (some false, st, [])
      else
        match chatUserLookup with
        | none => (some false, st, [])
        | some chat_user =>
          if !chat_user.Identified then
            (some true, st, [⟨clientId, ChannelMessageType.LeaveChannel_Complete,
              [BufItem.res ChannelMessageResult.NotIdentified]⟩])
          else if !nameContainsHash channel_name then
            (some true, st, [⟨clientId, ChannelMessageType.LeaveChannel_Complete,
              [BufItem.res ChannelMessageResult.InvalidChannelName]⟩])
          else
            match findEnabledChannel st.channels channel_name with
            | none =>
              (some true, st, [⟨clientId, ChannelMessageType.LeaveChannel_Complete,
                [BufItem.res ChannelMessageResult.InvalidChannelName]⟩])
            | some chat_channel =>
              if mapContains chat_channel.Clients clientId then
                let leftBuf : List BufItem :=
                  [BufItem.res ChannelMessageResult.UserLeft,
                   BufItem.str chat_user.Username, BufItem.str chat_user.Hostname]
                let sends :=
                  broadcast chat_channel.Clients ChannelMessageType.LeaveChannel leftBuf
                let clients' := mapErase chat_channel.Clients clientId
                if clients'.isEmpty then
                  (none,
                   ⟨replaceFirstEnabled st.channels channel_name
                      ⟨chat_channel.Name, false, clients', chat_channel.Operators⟩⟩,
                   sends)
                else
                  (some true,
                   ⟨replaceFirstEnabled st.channels channel_name
                      ⟨chat_channel.Name, chat_channel.Enabled, clients',
                       mapErase chat_channel.Operators clientId⟩⟩,
                   sends ++ [⟨clientId, ChannelMessageType.LeaveChannel_Complete,
                     [BufItem.res ChannelMessageResult.Ok, BufItem.str channel_name]⟩])
              else
                (some true, st, [⟨clientId, ChannelMessageType.LeaveChannel_Complete,
                  [BufItem.res ChannelMessageResult.NotInChannel]⟩])
  | _ => (some false, st, [])

/-- The per-channel body of `ChannelComponent::OnClientDisconnected`,
returning the channel's new state, the sends it issued, and whether the
process crashed in it.  Disabled channels are skipped.  For an enabled
channel: if the disconnecting connection is a member, a `UserLeft`
payload is broadcast to every member whose user record is enabled (the
loop does not exclude the disconnecting connection itself) and the
connection is erased from the members; if that does not empty them, the
connection is also erased from the operators (the source's guard
compares against the wrong map's end, so the erase is unconditional in
effect, a no-op when absent); if it does empty them, the source disables
the channel (line 97) but then nulls the local handle (line 98) and
dereferences it (`channel->ClientsMutex.unlock()`, line 101): the
process dies before the operators block (lines 104-108), so the
channel's operators stay untouched and the crash flag is raised. -/
def sweepChannel (clientId : Nat) (channel : ChatChannel) :
    ChatChannel × List Send × Bool :=
  if channel.Enabled then
    match mapFind channel.Clients clientId with
    | some chat_user =>
      let leftBuf : List BufItem :=
        [BufItem.res ChannelMessageResult.UserLeft,
         BufItem.str chat_user.Username, BufItem.str chat_user.Hostname]
      let sends := broadcast channel.Clients ChannelMessageType.LeaveChannel leftBuf
      let clients' := mapErase channel.Clients clientId
      if clients'.isEmpty then
        (⟨channel.Name, false, clients', channel.Operators⟩, sends, true)
      else
        (⟨channel.Name, channel.Enabled, clients',
          mapErase channel.Operators clientId⟩, sends, false)
    | none =>
      (⟨channel.Name, channel.Enabled, channel.Clients,
        mapErase channel.Operators clientId⟩, [], false)
  else (channel, [], false)

/-- The sweep's walk over `channels_`, in order: each channel is handled
by `sweepChannel`; a crash in one channel kills the process mid-loop, so
the remaining channels are never visited and keep their state. -/
def sweepChannels (clientId : Nat) : List ChatChannel → List ChatChannel × List Send × Bool
  | [] => ([], [], false)
  | c :: rest =>
    if (sweepChannel clientId c).2.2 then
      ((sweepChannel clientId c).1 :: rest, (sweepChannel clientId c).2.1, true)
    else
      ((sweepChannel clientId c).1 :: (sweepChannels clientId rest).1,
       (sweepChannel clientId c).2.1 ++ (sweepChannels clientId rest).2.1,
       (sweepChannels clientId rest).2.2)

/-- `ChannelComponent::OnClientDisconnected`: new state, sends issued,
and whether the process crashed during the sweep. -/
def OnClientDisconnected (st : ChannelComponentState) (clientId : Nat) :
    ChannelComponentState × List Send × Bool :=
  (⟨(sweepChannels clientId st.channels).1⟩,
   (sweepChannels clientId st.channels).2.1,
   (sweepChannels clientId st.channels).2.2)

/-- `ChannelComponent::Shutdown` clears the channel list. -/
def Shutdown (_st : ChannelComponentState) : ChannelComponentState := ⟨[]⟩

/-- `ChannelComponent::OnStop` clears the channel list. -/
def OnStop (_st : ChannelComponentState) : ChannelComponentState := ⟨[]⟩

/-- One state transition of the component: a `Handle` call with arbitrary
inputs, or a disconnect sweep. -/
inductive Step : ChannelComponentState → ChannelComponentState → Prop
  | handle (st : ChannelComponentState) (cid : Nat) (mt : ChannelMessageType)
      (nm : Option String) (ok : Bool) (lk : Option ChatUser) :
      Step st (Handle st cid mt nm ok lk).2.1
  | disconnect (st : ChannelComponentState) (cid : Nat) :
      Step st (OnClientDisconnected st cid).1

/-- The component's initial state: no channels. -/
def initialState : ChannelComponentState := ⟨[]⟩

/-- States reachable from the initial state by Join, Leave and disconnect
operations. -/
def Reachable (st : ChannelComponentState) : Prop :=
  Relation.ReflTransGen Step initialState st

/-- The enabled channels with a given name (for the uniqueness invariant). -/
def enabledNamedCount (chs : List ChatChannel) (name : String) : Nat :=
  (chs.filter (chanMatches name)).length

/- ------------------------------------------------------------------ -/
/- Helper lemmas                                                       -/
/- ------------------------------------------------------------------ -/

theorem findEnabledChannel_props {chs : List ChatChannel} {name : String}
    {c : ChatChannel} (h : findEnabledChannel chs name = some c) :
    c.Enabled = true ∧ c.Name = name := by
  unfold findEnabledChannel at h
  have hp := List.find?_some h
  unfold chanMatches at hp
  simpa [Bool.and_eq_true, decide_eq_true_iff] using hp

theorem mapFind_mem {m : List (Nat × ChatUser)} {k : Nat} {v : ChatUser}
    (h : mapFind m k = some v) : (k, v) ∈ m := by
  induction m with
  | nil => simp [mapFind] at h
  | cons p rest ih =>
    unfold mapFind at h
    by_cases hk : p.1 = k
    · simp [hk] at h
      cases p
      simp_all
    · simp [hk] at h
      exact List.mem_cons_of_mem _ (ih h)

theorem replaceFirstEnabled_length (chs : List ChatChannel) (name : String)
    (c' : ChatChannel) :
    (replaceFirstEnabled chs name c').length = chs.length := by
  induction chs with
  | nil => rfl
  | cons c rest ih =>
    unfold replaceFirstEnabled
    split <;> simp [ih]

/-- Every `Handle` call changes the channel list in one of three ways:
not at all, by appending one freshly created channel for a name with no
enabled match, or by replacing the first enabled channel with a given
name by a channel of the same name. -/
theorem handle_channels_cases (st : ChannelComponentState) (cid : Nat)
    (mt : ChannelMessageType) (nm : Option String) (ok : Bool)
    (lk : Option ChatUser) :
    (Handle st cid mt nm ok lk).2.1 = st ∨
    (∃ name u, findEnabledChannel st.channels name = none ∧
       (Handle st cid mt nm ok lk).2.1.channels
         = st.channels ++ [⟨name, newChannelEnabled, [(cid, u)], [(cid, u)]⟩]) ∨
    (∃ name c', c'.Name = name ∧
       (Handle st cid mt nm ok lk).2.1.channels
         = replaceFirstEnabled st.channels name c') := by
  cases mt with
  | JoinChannel =>
    cases nm with
    | none => exact Or.inl rfl
    | some name =>
      cases ok with
      | false => exact Or.inl rfl
      | true =>
        cases lk with
        | none => exact Or.inl rfl
        | some u =>
          obtain ⟨un, hn, idf, en⟩ := u
          cases idf with
          | false => exact Or.inl rfl
          | true =>
            cases hnm : nameContainsHash name with
            | false => left; simp [Handle, hnm]
            | true =>
              cases hfind : findEnabledChannel st.channels name with
              | none =>
                right; left
                exact ⟨name, ⟨un, hn, true, en⟩, hfind, by simp [Handle, hnm, hfind]⟩
              | some ch =>
                cases hmc : mapContains ch.Clients cid with
                | true => left; simp [Handle, hnm, hfind, hmc]
                | false =>
                  right; right
                  refine ⟨name,
                    { ch with Clients := mapInsert ch.Clients cid ⟨un, hn, true, en⟩ },
                    (findEnabledChannel_props hfind).2, ?_⟩
                  simp [Handle, hnm, hfind, hmc]
  | LeaveChannel =>
    cases nm with
    | none => exact Or.inl rfl
    | some name =>
      cases ok with
      | false => exact Or.inl rfl
      | true =>
        cases lk with
        | none => exact Or.inl rfl
        | some u =>
          obtain ⟨un, hn, idf, en⟩ := u
          cases idf with
          | false => exact Or.inl rfl
          | true =>
            cases hnm : nameContainsHash name with
            | false => left; simp [Handle, hnm]
            | true =>
              cases hfind : findEnabledChannel st.channels name with
              | none => left; simp [Handle, hnm, hfind]
              | some ch =>
                cases hmc : mapContains ch.Clients cid with
                | false => left; simp [Handle, hnm, hfind, hmc]
                | true =>
                  right; right
                  cases hemp : (mapErase ch.Clients cid).isEmpty with
                  | true =>
                    refine ⟨name,
                      ⟨ch.Name, false, mapErase ch.Clients cid, ch.Operators⟩,
                      (findEnabledChannel_props hfind).2, ?_⟩
                    simp [Handle, hnm, hfind, hmc, hemp]
                  | false =>
                    refine ⟨name,
                      ⟨ch.Name, ch.Enabled, mapErase ch.Clients cid,
                       mapErase ch.Operators cid⟩,
                      (findEnabledChannel_props hfind).2, ?_⟩
                    simp [Handle, hnm, hfind, hmc, hemp]
  | JoinChannel_Complete => exact Or.inl rfl
  | LeaveChannel_Complete => exact Or.inl rfl
  | Other => exact Or.inl rfl

/-- A lookup that found nothing means no enabled channel with that name
is present. -/
theorem find_none_count (chs : List ChatChannel) (name : String)
    (h : findEnabledChannel chs name = none) :
    enabledNamedCount chs name = 0 := by
  unfold findEnabledChannel at h
  unfold enabledNamedCount
  rw [List.find?_eq_none] at h
  rw [List.filter_eq_nil_iff.mpr h]
  rfl

theorem count_append_singleton (chs : List ChatChannel) (c : ChatChannel)
    (n : String) :
    enabledNamedCount (chs ++ [c]) n
      = enabledNamedCount chs n + (if chanMatches n c then 1 else 0) := by
  unfold enabledNamedCount
  rw [List.filter_append, List.length_append]
  cases hc : chanMatches n c <;> simp [List.filter_cons, hc]

/-- Replacing the first enabled channel named `name` by a channel of the
same name never increases the number of enabled channels with any given
name. -/
theorem replace_count_le (chs : List ChatChannel) (name : String)
    (c' : ChatChannel) (hc' : c'.Name = name) (n : String) :
    enabledNamedCount (replaceFirstEnabled chs name c') n
      ≤ enabledNamedCount chs n := by
  induction chs with
  | nil => exact Nat.le_refl _
  | cons c rest ih =>
    unfold replaceFirstEnabled
    by_cases h : chanMatches name c
    · rw [if_pos h]
      unfold enabledNamedCount
      by_cases hcn' : chanMatches n c'
      · have hnn : n = name := by
          unfold chanMatches at hcn'
          simp only [Bool.and_eq_true, decide_eq_true_iff] at hcn'
          rw [← hcn'.2, hc']
        have hcn : chanMatches n c = true := by rw [hnn]; exact h
        simp [List.filter_cons, hcn', hcn]
      · cases hcn : chanMatches n c <;>
          simp [List.filter_cons, hcn', hcn, Nat.le_succ_of_le]
    · rw [if_neg h]
      unfold enabledNamedCount at ih ⊢
      cases hcn : chanMatches n c <;> simp [List.filter_cons, hcn]
      · exact ih
      · exact ih

/-- A channel that is enabled (with a given name) after its visit by the
disconnect sweep was already enabled with that name before it. -/
theorem sweep_chanMatches {cid : Nat} {c : ChatChannel} {n : String}
    (h : chanMatches n (sweepChannel cid c).1 = true) :
    chanMatches n c = true := by
  by_cases hc : c.Enabled = true
  · cases hm : mapFind c.Clients cid with
    | some u =>
      by_cases hemp : (mapErase c.Clients cid).isEmpty = true
      · have he : (sweepChannel cid c).1
            = ⟨c.Name, false, mapErase c.Clients cid, c.Operators⟩ := by
          simp [sweepChannel, hc, hm, hemp]
        rw [he] at h
        unfold chanMatches at h
        simp at h
      · have he : (sweepChannel cid c).1
            = ⟨c.Name, c.Enabled, mapErase c.Clients cid,
               mapErase c.Operators cid⟩ := by
          simp [sweepChannel, hc, hm, hemp]
        rw [he] at h
        unfold chanMatches at h ⊢
        simpa using h
    | none =>
      have he : (sweepChannel cid c).1
          = ⟨c.Name, c.Enabled, c.Clients, mapErase c.Operators cid⟩ := by
        simp [sweepChannel, hc, hm]
      rw [he] at h
      unfold chanMatches at h ⊢
      simpa using h
  · have he : (sweepChannel cid c).1 = c := by
      simp [sweepChannel, hc]
    rw [he] at h
    exact h

/-- The sweep's walk keeps the channel list's length. -/
theorem sweepChannels_length (cid : Nat) (chs : List ChatChannel) :
    (sweepChannels cid chs).1.length = chs.length := by
  induction chs with
  | nil => rfl
  | cons c rest ih =>
    unfold sweepChannels
    split <;> simp [ih]

theorem sweeps_count_le (chs : List ChatChannel) (cid : Nat) (n : String) :
    enabledNamedCount ((sweepChannels cid chs).1) n ≤ enabledNamedCount chs n := by
  induction chs with
  | nil => exact Nat.le_refl _
  | cons c rest ih =>
    unfold sweepChannels
    split
    · unfold enabledNamedCount
      cases hm : chanMatches n (sweepChannel cid c).1
      · cases hcn : chanMatches n c <;>
          simp [List.filter_cons, hm, hcn, Nat.le_succ_of_le]
      · have hcn := sweep_chanMatches hm
        simp [List.filter_cons, hm, hcn]
    · unfold enabledNamedCount at ih ⊢
      cases hm : chanMatches n (sweepChannel cid c).1
      · cases hcn : chanMatches n c <;>
          simp [List.filter_cons, hm, hcn, Nat.le_succ_of_le, ih]
      · have hcn := sweep_chanMatches hm
        simp only [List.filter_cons, hm, hcn, if_true, List.length_cons]
        exact Nat.succ_le_succ ih

/- ------------------------------------------------------------------ -/
/- Claim theorems                                                      -/
/- ------------------------------------------------------------------ -/

/-- Claim C1: for every identified user and every channel name containing
a hash for which no enabled channel exists, Join appends a new enabled
channel whose member map and operator map both hold exactly the joiner,
and replies `ChannelCreated` to the requester. -/
theorem c1_join_creates_channel (st : ChannelComponentState) (cid : Nat)
    (name : String) (u : ChatUser)
    (hid : u.Identified = true)
    (hname : nameContainsHash name = true)
    (hnone : findEnabledChannel st.channels name = none) :
    Handle st cid ChannelMessageType.JoinChannel (some name) true (some u)
      = (some true,
         ⟨st.channels ++ [⟨name, true, [(cid, u)], [(cid, u)]⟩]⟩,
         [⟨cid, ChannelMessageType.JoinChannel_Complete,
           [BufItem.res ChannelMessageResult.ChannelCreated]⟩]) := by
  simp [Handle, hid, hname, hnone, newChannelEnabled]

/-- Claim C1 witness: an identified user creating a fresh channel from the
empty state. -/
theorem c1_join_creates_channel_witness :
    (⟨("alice"), ("hostA"), true, true⟩ : ChatUser).Identified = true
  ∧ nameContainsHash ("#general") = true
  ∧ findEnabledChannel initialState.channels ("#general") = none
  ∧ Handle initialState 1 ChannelMessageType.JoinChannel (some ("#general")) true
        (some ⟨("alice"), ("hostA"), true, true⟩)
      = (some true,
         ⟨initialState.channels ++ [⟨("#general"), true,
            [(1, ⟨("alice"), ("hostA"), true, true⟩)],
            [(1, ⟨("alice"), ("hostA"), true, true⟩)]⟩]⟩,
         [⟨1, ChannelMessageType.JoinChannel_Complete,
           [BufItem.res ChannelMessageResult.ChannelCreated]⟩]) :=
  ⟨rfl, by decide, rfl,
   c1_join_creates_channel initialState 1 ("#general") ⟨("alice"), ("hostA"), true, true⟩
     rfl (by decide) rfl⟩

/-- Claim C6: for a Join or Leave request from an identified user whose
channel name has no hash character, the component replies
`InvalidChannelName` on the corresponding completion message type, keeps
the state unchanged, and sends nothing else. -/
theorem c6_invalid_name_no_mutation (st : ChannelComponentState) (cid : Nat)
    (mt : ChannelMessageType) (name : String) (u : ChatUser)
    (hmt : mt = ChannelMessageType.JoinChannel ∨ mt = ChannelMessageType.LeaveChannel)
    (hid : u.Identified = true)
    (hname : nameContainsHash name = false) :
    Handle st cid mt (some name) true (some u)
      = (some true, st,
         [⟨cid,
           if mt = ChannelMessageType.JoinChannel then
             ChannelMessageType.JoinChannel_Complete
           else ChannelMessageType.LeaveChannel_Complete,
           [BufItem.res ChannelMessageResult.InvalidChannelName]⟩]) := by
  rcases hmt with rfl | rfl <;> simp [Handle, hid, hname]

/-- Claim C6 witness: a Leave request for the hash-less name `general`. -/
theorem c6_invalid_name_no_mutation_witness :
    (ChannelMessageType.LeaveChannel = ChannelMessageType.JoinChannel
       ∨ ChannelMessageType.LeaveChannel = ChannelMessageType.LeaveChannel)
  ∧ (⟨("bob"), ("hostB"), true, true⟩ : ChatUser).Identified = true
  ∧ nameContainsHash ("general") = false
  ∧ Handle ⟨[⟨("#x"), true, [], []⟩]⟩ 7 ChannelMessageType.LeaveChannel (some ("general"))
        true (some ⟨("bob"), ("hostB"), true, true⟩)
      = (some true, ⟨[⟨("#x"), true, [], []⟩]⟩,
         [⟨7,
           if ChannelMessageType.LeaveChannel = ChannelMessageType.JoinChannel then
             ChannelMessageType.JoinChannel_Complete
           else ChannelMessageType.LeaveChannel_Complete,
           [BufItem.res ChannelMessageResult.InvalidChannelName]⟩]) :=
  ⟨Or.inr rfl, rfl, by decide,
   c6_invalid_name_no_mutation ⟨[⟨("#x"), true, [], []⟩]⟩ 7
     ChannelMessageType.LeaveChannel ("general") ⟨("bob"), ("hostB"), true, true⟩
     (Or.inr rfl) rfl (by decide)⟩

/-- Claim C7 evaluation: a recognized, well-formed Leave from a
resolvable, identified user who is the sole member of the enabled
channel `#b` makes `Handle` return neither true nor false — the handler
nulls the channel handle after disabling the emptied channel and
dereferences it (line 375), so the process dies and the call never
returns (outcome `none`), contradicting the claim that every such
request returns true. -/
theorem c7_sole_member_leave_no_return :
    (Handle ⟨[⟨("#b"), true,
          [(2, ⟨("bob"), ("hostB"), true, true⟩)],
          [(2, ⟨("bob"), ("hostB"), true, true⟩)]⟩]⟩ 2
        ChannelMessageType.LeaveChannel (some ("#b")) true
        (some ⟨("bob"), ("hostB"), true, true⟩)).1 = none := by
  decide

/-- Claim C10: a Leave request by an identified user who is not in the
channel's member map replies `NotInChannel` and leaves the whole state —
in particular the channel's operator map — untouched, even if the
connection appears among the operators; the disconnect sweep, by
contrast, erases the connection from the operators of an enabled channel
even when it is not a member. -/
theorem c10_not_in_channel_frame (st : ChannelComponentState) (cid : Nat)
    (name : String) (u : ChatUser) (ch : ChatChannel)
    (hid : u.Identified = true)
    (hname : nameContainsHash name = true)
    (hfind : findEnabledChannel st.channels name = some ch)
    (hnm : mapFind ch.Clients cid = none) :
    Handle st cid ChannelMessageType.LeaveChannel (some name) true (some u)
      = (some true, st,
         [⟨cid, ChannelMessageType.LeaveChannel_Complete,
           [BufItem.res ChannelMessageResult.NotInChannel]⟩])
  ∧ ∀ c : ChatChannel, c.Enabled = true → mapFind c.Clients cid = none →
      (sweepChannel cid c).1.Operators = mapErase c.Operators cid := by
  constructor
  · simp [Handle, hid, hname, hfind, mapContains, hnm]
  · intro c hc hm
    simp [sweepChannel, hc, hm]

/-- Claim C10 witness: connection 1 is an operator of `#g` but not a
member; its Leave is answered `NotInChannel` with no state change. -/
theorem c10_not_in_channel_frame_witness :
    (⟨("alice"), ("hostA"), true, true⟩ : ChatUser).Identified = true
  ∧ nameContainsHash ("#g") = true
  ∧ findEnabledChannel
        [⟨("#g"), true, [(2, ⟨("bob"), ("hostB"), true, true⟩)],
          [(1, ⟨("alice"), ("hostA"), true, true⟩)]⟩] ("#g")
      = some ⟨("#g"), true, [(2, ⟨("bob"), ("hostB"), true, true⟩)],
          [(1, ⟨("alice"), ("hostA"), true, true⟩)]⟩
  ∧ mapFind [(2, (⟨("bob"), ("hostB"), true, true⟩ : ChatUser))] 1 = none
  ∧ (Handle ⟨[⟨("#g"), true, [(2, ⟨("bob"), ("hostB"), true, true⟩)],
          [(1, ⟨("alice"), ("hostA"), true, true⟩)]⟩]⟩ 1
        ChannelMessageType.LeaveChannel (some ("#g")) true
        (some ⟨("alice"), ("hostA"), true, true⟩)
      = (some true, ⟨[⟨("#g"), true, [(2, ⟨("bob"), ("hostB"), true, true⟩)],
          [(1, ⟨("alice"), ("hostA"), true, true⟩)]⟩]⟩,
         [⟨1, ChannelMessageType.LeaveChannel_Complete,
           [BufItem.res ChannelMessageResult.NotInChannel]⟩])
     ∧ ∀ c : ChatChannel, c.Enabled = true → mapFind c.Clients 1 = none →
         (sweepChannel 1 c).1.Operators = mapErase c.Operators 1) :=
  ⟨rfl, by decide, by decide, by decide,
   c10_not_in_channel_frame
     ⟨[⟨("#g"), true, [(2, ⟨("bob"), ("hostB"), true, true⟩)],
        [(1, ⟨("alice"), ("hostA"), true, true⟩)]⟩]⟩ 1 ("#g")
     ⟨("alice"), ("hostA"), true, true⟩
     ⟨("#g"), true, [(2, ⟨("bob"), ("hostB"), true, true⟩)],
        [(1, ⟨("alice"), ("hostA"), true, true⟩)]⟩
     rfl (by decide) (by decide) (by decide)⟩

/-- Claim C2 evaluation: alice, identified with an enabled record, is
the sole member and operator of the enabled channel `#a` and sends
Leave `#a`.  The code broadcasts `UserLeft` (to alice, the only enabled
member) and erases her from the members; the emptied channel is marked
disabled; but the handler then nulls the channel handle (line 360) and
dereferences it (line 375), so the process dies with alice still in the
operators map and no `Ok` reply ever sent — against the claim, which
says the operator removal happens and the requester finally receives an
`Ok` reply carrying the channel name. -/
theorem c2_sole_member_leave_crashes :
    Handle ⟨[⟨("#a"), true,
        [(1, ⟨("alice"), ("hostA"), true, true⟩)],
        [(1, ⟨("alice"), ("hostA"), true, true⟩)]⟩]⟩ 1
      ChannelMessageType.LeaveChannel (some ("#a")) true
      (some ⟨("alice"), ("hostA"), true, true⟩)
    = (none,
       ⟨[⟨("#a"), false, [], [(1, ⟨("alice"), ("hostA"), true, true⟩)]⟩]⟩,
       [⟨1, ChannelMessageType.LeaveChannel,
         [BufItem.res ChannelMessageResult.UserLeft,
          BufItem.str ("alice"), BufItem.str ("hostA")]⟩]) := by
  decide

/-- Claim C4 evaluation: `#c` is enabled with carol — identified but with
a disabled user record — as its sole member and operator; when dave
(connection 2) joins, the `Ok` reply writes `operatorCount = 1`
(`Operators.size()`) followed by zero `(username, hostname)` operator
entries, and `memberCount = 2` (`Clients.size()` after dave's insertion)
followed by a single member entry: the size counts do not match the
entries, which are filtered on the user record's `Enabled` flag. -/
theorem c4_count_entry_mismatch :
    (Handle ⟨[⟨("#c"), true,
          [(1, ⟨("carol"), ("hostC"), true, false⟩)],
          [(1, ⟨("carol"), ("hostC"), true, false⟩)]⟩]⟩ 2
        ChannelMessageType.JoinChannel (some ("#c")) true
        (some ⟨("dave"), ("hostD"), true, true⟩)).2.2.head?
      = some ⟨2, ChannelMessageType.JoinChannel_Complete,
          [BufItem.res ChannelMessageResult.Ok,
           BufItem.u32 1,
           BufItem.u32 2, BufItem.str ("dave"), BufItem.str ("hostD")]⟩ := by
  decide

/-- Claim C5 counterexample: A (connection 1) is the sole member and
operator of the enabled channel `#general`; when the distinct identified
connection 2 (B) joins, B's reply is not `Ok` with operator list `[A]`
and member list `[A]` — the member snapshot is taken after B is inserted,
so it holds two entries. -/
theorem c5_member_list_counterexample :
    ¬ ((Handle ⟨[⟨("#general"), true,
            [(1, ⟨("alice"), ("hostA"), true, true⟩)],
            [(1, ⟨("alice"), ("hostA"), true, true⟩)]⟩]⟩ 2
          ChannelMessageType.JoinChannel (some ("#general")) true
          (some ⟨("bob"), ("hostB"), true, true⟩)).2.2.head?
        = some ⟨2, ChannelMessageType.JoinChannel_Complete,
            [BufItem.res ChannelMessageResult.Ok,
             BufItem.u32 1, BufItem.str ("alice"), BufItem.str ("hostA"),
             BufItem.u32 1, BufItem.str ("alice"), BufItem.str ("hostA")]⟩) := by
  decide

/-- Claim C5 as amended: when A (identified, enabled) is the sole member
and operator of the named enabled channel and a distinct identified,
enabled connection B (with larger key) joins, B receives an `Ok` reply
whose operator list is exactly `[A]` and whose member list is exactly
`[A, B]` — the joiner is inserted into the member map before the member
snapshot is written — and both A and B receive a `UserJoined` broadcast
carrying B's username and hostname, A first. -/
theorem c5_second_join (st : ChannelComponentState) (name : String)
    (cidA cidB : Nat) (uA uB : ChatUser) (ch : ChatChannel)
    (hAen : uA.Enabled = true)
    (hBid : uB.Identified = true)
    (hBen : uB.Enabled = true)
    (hlt : cidA < cidB)
    (hname : nameContainsHash name = true)
    (hfind : findEnabledChannel st.channels name = some ch)
    (hcl : ch.Clients = [(cidA, uA)])
    (hop : ch.Operators = [(cidA, uA)]) :
    Handle st cidB ChannelMessageType.JoinChannel (some name) true (some uB)
      = (some true,
         ⟨replaceFirstEnabled st.channels name
            { ch with Clients := [(cidA, uA), (cidB, uB)] }⟩,
         ⟨cidB, ChannelMessageType.JoinChannel_Complete,
           [BufItem.res ChannelMessageResult.Ok,
            writeU32 1, BufItem.str uA.Username, BufItem.str uA.Hostname,
            writeU32 2, BufItem.str uA.Username, BufItem.str uA.Hostname,
            BufItem.str uB.Username, BufItem.str uB.Hostname]⟩
           :: [⟨cidA, ChannelMessageType.JoinChannel,
                [BufItem.res ChannelMessageResult.UserJoined,
                 BufItem.str uB.Username, BufItem.str uB.Hostname]⟩,
               ⟨cidB, ChannelMessageType.JoinChannel,
                [BufItem.res ChannelMessageResult.UserJoined,
                 BufItem.str uB.Username, BufItem.str uB.Hostname]⟩]) := by
  have hne : ¬ cidA = cidB := Nat.ne_of_lt hlt
  have hnlt : ¬ cidB < cidA := Nat.lt_asymm hlt
  have hne' : ¬ cidB = cidA := fun h => hne h.symm
  simp [Handle, hBid, hname, hfind, mapContains, hcl, hop, mapFind, hne', hne,
    mapInsert, hnlt, writeUserEntries, enabledEntries, hAen, hBen, broadcast,
    List.filter, writeU32]

/-- Claim C5 (amended) witness: the concrete two-connection scenario of
the counterexample, proved through the amended theorem. -/
theorem c5_second_join_witness :
    (⟨("alice"), ("hostA"), true, true⟩ : ChatUser).Enabled = true
  ∧ (⟨("bob"), ("hostB"), true, true⟩ : ChatUser).Identified = true
  ∧ (⟨("bob"), ("hostB"), true, true⟩ : ChatUser).Enabled = true
  ∧ 1 < 2
  ∧ nameContainsHash ("#general") = true
  ∧ findEnabledChannel
        [⟨("#general"), true,
          [(1, ⟨("alice"), ("hostA"), true, true⟩)],
          [(1, ⟨("alice"), ("hostA"), true, true⟩)]⟩] ("#general")
      = some ⟨("#general"), true,
          [(1, ⟨("alice"), ("hostA"), true, true⟩)],
          [(1, ⟨("alice"), ("hostA"), true, true⟩)]⟩
  ∧ (Handle ⟨[⟨("#general"), true,
          [(1, ⟨("alice"), ("hostA"), true, true⟩)],
          [(1, ⟨("alice"), ("hostA"), true, true⟩)]⟩]⟩ 2
        ChannelMessageType.JoinChannel (some ("#general")) true
        (some ⟨("bob"), ("hostB"), true, true⟩)).2.2
      = ⟨2, ChannelMessageType.JoinChannel_Complete,
          [BufItem.res ChannelMessageResult.Ok,
           writeU32 1, BufItem.str ("alice"), BufItem.str ("hostA"),
           writeU32 2, BufItem.str ("alice"), BufItem.str ("hostA"),
           BufItem.str ("bob"), BufItem.str ("hostB")]⟩
        :: [⟨1, ChannelMessageType.JoinChannel,
             [BufItem.res ChannelMessageResult.UserJoined,
              BufItem.str ("bob"), BufItem.str ("hostB")]⟩,
            ⟨2, ChannelMessageType.JoinChannel,
             [BufItem.res ChannelMessageResult.UserJoined,
              BufItem.str ("bob"), BufItem.str ("hostB")]⟩] := by
  refine ⟨rfl, rfl, rfl, by decide, by decide, by decide, ?_⟩
  have h := c5_second_join
    ⟨[⟨("#general"), true,
        [(1, ⟨("alice"), ("hostA"), true, true⟩)],
        [(1, ⟨("alice"), ("hostA"), true, true⟩)]⟩]⟩ ("#general") 1 2
    ⟨("alice"), ("hostA"), true, true⟩ ⟨("bob"), ("hostB"), true, true⟩
    ⟨("#general"), true,
        [(1, ⟨("alice"), ("hostA"), true, true⟩)],
        [(1, ⟨("alice"), ("hostA"), true, true⟩)]⟩
    rfl rfl rfl (by decide) (by decide) (by decide) rfl rfl
  rw [h]

/-- Claim C3 counterexample: `#g` is enabled with two members whose user
records are both enabled; when connection 1 disconnects, the sweep's
`UserLeft` broadcast is delivered to connection 1 itself as well — the
broadcast loop filters only on the user record's `Enabled` flag and does
not exclude the disconnecting connection, so the recipients are not
"all other enabled members". -/
theorem c3_self_broadcast_counterexample :
    (⟨1, ChannelMessageType.LeaveChannel,
      [BufItem.res ChannelMessageResult.UserLeft,
       BufItem.str ("alice"), BufItem.str ("hostA")]⟩ : Send)
      ∈ (OnClientDisconnected ⟨[⟨("#g"), true,
            [(1, ⟨("alice"), ("hostA"), true, true⟩),
             (2, ⟨("bob"), ("hostB"), true, true⟩)],
            [(1, ⟨("alice"), ("hostA"), true, true⟩)]⟩]⟩ 1).2.1 := by
  decide

/-- Claim C3 as amended: the disconnect sweep walks the channel list in
order; a disabled channel is untouched and produces no sends; for an
enabled channel in which the disconnecting connection is a member, a
`UserLeft` payload is broadcast to every member whose user record is
enabled (including the disconnecting connection itself when its record
is still enabled) and the connection is erased from the members; if the
members do not become empty the connection is also erased from the
operators and the walk continues with the next channel; if they become
empty the channel is disabled but the process then crashes on the
nulled channel handle, leaving that channel's operators untouched and
the remaining channels unvisited; for an enabled channel in which the
connection is not a member, the members are untouched and the
connection is erased from the operators if present there. -/
theorem c3_disconnect_sweep (st : ChannelComponentState) (cid : Nat) :
    OnClientDisconnected st cid
      = (⟨(sweepChannels cid st.channels).1⟩,
         (sweepChannels cid st.channels).2.1,
         (sweepChannels cid st.channels).2.2)
  ∧ (∀ (c : ChatChannel) (rest : List ChatChannel),
       (sweepChannel cid c).2.2 = false →
       sweepChannels cid (c :: rest)
         = ((sweepChannel cid c).1 :: (sweepChannels cid rest).1,
            (sweepChannel cid c).2.1 ++ (sweepChannels cid rest).2.1,
            (sweepChannels cid rest).2.2))
  ∧ (∀ (c : ChatChannel) (rest : List ChatChannel),
       (sweepChannel cid c).2.2 = true →
       sweepChannels cid (c :: rest)
         = ((sweepChannel cid c).1 :: rest, (sweepChannel cid c).2.1, true))
  ∧ (∀ c : ChatChannel, c.Enabled = false → sweepChannel cid c = (c, [], false))
  ∧ (∀ (c : ChatChannel) (u : ChatUser), c.Enabled = true →
        mapFind c.Clients cid = some u →
        (mapErase c.Clients cid).isEmpty = false →
        sweepChannel cid c
          = (⟨c.Name, c.Enabled, mapErase c.Clients cid, mapErase c.Operators cid⟩,
             (enabledEntries c.Clients).map (fun p =>
               (⟨p.1, ChannelMessageType.LeaveChannel,
                 [BufItem.res ChannelMessageResult.UserLeft,
                  BufItem.str u.Username, BufItem.str u.Hostname]⟩ : Send)),
             false))
  ∧ (∀ (c : ChatChannel) (u : ChatUser), c.Enabled = true →
        mapFind c.Clients cid = some u →
        (mapErase c.Clients cid).isEmpty = true →
        sweepChannel cid c
          = (⟨c.Name, false, mapErase c.Clients cid, c.Operators⟩,
             (enabledEntries c.Clients).map (fun p =>
               (⟨p.1, ChannelMessageType.LeaveChannel,
                 [BufItem.res ChannelMessageResult.UserLeft,
                  BufItem.str u.Username, BufItem.str u.Hostname]⟩ : Send)),
             true))
  ∧ (∀ c : ChatChannel, c.Enabled = true → mapFind c.Clients cid = none →
        sweepChannel cid c
          = (⟨c.Name, c.Enabled, c.Clients, mapErase c.Operators cid⟩, [], false)) := by
  refine ⟨rfl, ?_, ?_, ?_, ?_, ?_, ?_⟩
  · intro c rest hcr
    simp only [sweepChannels]
    rw [if_neg (by simp [hcr])]
  · intro c rest hcr
    simp only [sweepChannels]
    rw [if_pos hcr]
  · intro c hc
    simp [sweepChannel, hc]
  · intro c u hc hm hemp
    simp [sweepChannel, hc, hm, hemp, broadcast]
  · intro c u hc hm hemp
    simp [sweepChannel, hc, hm, hemp, broadcast]
  · intro c hc hm
    simp [sweepChannel, hc, hm]

/-- Claim C3 (amended) witness: connection 1 is the sole member of the
enabled channel `#h`; the sweep broadcasts to it, disables the emptied
channel, leaves the operators untouched, raises the crash flag, and a
channel after `#h` in the directory is never visited. -/
theorem c3_disconnect_sweep_witness :
    (⟨("#h"), true, [(1, ⟨("alice"), ("hostA"), true, true⟩)],
       [(1, ⟨("alice"), ("hostA"), true, true⟩)]⟩ : ChatChannel).Enabled = true
  ∧ mapFind [(1, (⟨("alice"), ("hostA"), true, true⟩ : ChatUser))] 1
      = some ⟨("alice"), ("hostA"), true, true⟩
  ∧ (mapErase [(1, (⟨("alice"), ("hostA"), true, true⟩ : ChatUser))] 1).isEmpty = true
  ∧ sweepChannel 1 ⟨("#h"), true, [(1, ⟨("alice"), ("hostA"), true, true⟩)],
       [(1, ⟨("alice"), ("hostA"), true, true⟩)]⟩
      = (⟨("#h"), false,
          mapErase [(1, (⟨("alice"), ("hostA"), true, true⟩ : ChatUser))] 1,
          [(1, ⟨("alice"), ("hostA"), true, true⟩)]⟩,
         (enabledEntries [(1, (⟨("alice"), ("hostA"), true, true⟩ : ChatUser))]).map
           (fun p => (⟨p.1, ChannelMessageType.LeaveChannel,
             [BufItem.res ChannelMessageResult.UserLeft,
              BufItem.str ("alice"), BufItem.str ("hostA")]⟩ : Send)),
         true)
  ∧ sweepChannels 1
      (⟨("#h"), true, [(1, ⟨("alice"), ("hostA"), true, true⟩)],
         [(1, ⟨("alice"), ("hostA"), true, true⟩)]⟩
        :: [⟨("#k"), true, [(2, ⟨("bob"), ("hostB"), true, true⟩)], []⟩])
      = ((sweepChannel 1 ⟨("#h"), true, [(1, ⟨("alice"), ("hostA"), true, true⟩)],
            [(1, ⟨("alice"), ("hostA"), true, true⟩)]⟩).1
          :: [⟨("#k"), true, [(2, ⟨("bob"), ("hostB"), true, true⟩)], []⟩],
         (sweepChannel 1 ⟨("#h"), true, [(1, ⟨("alice"), ("hostA"), true, true⟩)],
            [(1, ⟨("alice"), ("hostA"), true, true⟩)]⟩).2.1,
         true) :=
  ⟨rfl, by decide, by decide,
   (c3_disconnect_sweep ⟨[]⟩ 1).2.2.2.2.2.1
     ⟨("#h"), true, [(1, ⟨("alice"), ("hostA"), true, true⟩)],
       [(1, ⟨("alice"), ("hostA"), true, true⟩)]⟩
     ⟨("alice"), ("hostA"), true, true⟩ rfl (by decide) (by decide),
   (c3_disconnect_sweep ⟨[]⟩ 1).2.2.1
     ⟨("#h"), true, [(1, ⟨("alice"), ("hostA"), true, true⟩)],
       [(1, ⟨("alice"), ("hostA"), true, true⟩)]⟩
     [⟨("#k"), true, [(2, ⟨("bob"), ("hostB"), true, true⟩)], []⟩]
     (by decide)⟩

/-- Claim C8: in every state reachable by Join, Leave and disconnect
operations, at most one enabled channel with any given name exists —
Join creates a channel only when the lookup over enabled channels finds
no match, and Leave and the disconnect sweep never enable a channel or
change a name. -/
theorem c8_enabled_names_unique (st : ChannelComponentState)
    (h : Reachable st) :
    ∀ name, enabledNamedCount st.channels name ≤ 1 := by
  unfold Reachable at h
  induction h with
  | refl =>
    intro n
    simp [initialState, enabledNamedCount]
  | tail _ hstep ih =>
    intro n
    cases hstep with
    | handle cid mt nm ok lk =>
      rcases handle_channels_cases _ cid mt nm ok lk with
        h1 | ⟨name', u, hnone, h2⟩ | ⟨name', c', hc', h3⟩
      · rw [h1]; exact ih n
      · rw [h2, count_append_singleton]
        by_cases hn : chanMatches n ⟨name', newChannelEnabled, [(cid, u)], [(cid, u)]⟩ = true
        · have hnn : name' = n := by
            unfold chanMatches at hn
            simpa [newChannelEnabled, decide_eq_true_iff] using hn
          rw [if_pos hn, ← hnn, find_none_count _ _ hnone]
        · rw [if_neg hn]
          simpa using ih n
      · rw [h3]
        exact (replace_count_le _ _ _ hc' n).trans (ih n)
    | disconnect cid =>
      exact (sweeps_count_le _ _ _).trans (ih n)

/-- Claim C8 witness: the state holding exactly the channel created by
one Join from the initial state is reachable, and `#a` names at most one
enabled channel in it. -/
theorem c8_enabled_names_unique_witness :
    Reachable ⟨[⟨("#a"), true,
       [(1, ⟨("alice"), ("hostA"), true, true⟩)],
       [(1, ⟨("alice"), ("hostA"), true, true⟩)]⟩]⟩
  ∧ enabledNamedCount
      [⟨("#a"), true,
        [(1, ⟨("alice"), ("hostA"), true, true⟩)],
        [(1, ⟨("alice"), ("hostA"), true, true⟩)]⟩] ("#a") ≤ 1 := by
  have hr : Reachable ⟨[⟨("#a"), true,
      [(1, ⟨("alice"), ("hostA"), true, true⟩)],
      [(1, ⟨("alice"), ("hostA"), true, true⟩)]⟩]⟩ :=
    Relation.ReflTransGen.single
      (Step.handle initialState 1 ChannelMessageType.JoinChannel (some ("#a")) true
        (some ⟨("alice"), ("hostA"), true, true⟩))
  exact ⟨hr, c8_enabled_names_unique _ hr ("#a")⟩

/-- Claim C9: no Join, Leave or disconnect step ever removes a channel
entry from the directory's backing collection — the channel list's
length is nondecreasing across every step (an emptied channel is merely
flagged disabled) — and the list is cleared by `Shutdown` and `OnStop`. -/
theorem c9_directory_never_shrinks (st st' : ChannelComponentState)
    (h : Step st st') :
    st.channels.length ≤ st'.channels.length
  ∧ (Shutdown st).channels = [] ∧ (OnStop st).channels = [] := by
  refine ⟨?_, rfl, rfl⟩
  cases h with
  | handle cid mt nm ok lk =>
    rcases handle_channels_cases st cid mt nm ok lk with
      h1 | ⟨name, u, _, h2⟩ | ⟨name, c', _, h3⟩
    · rw [h1]
    · rw [h2]; simp
    · rw [h3, replaceFirstEnabled_length]
  | disconnect cid =>
    simp [OnClientDisconnected, sweepChannels_length]

/-- Claim C9 witness: the Leave step that empties `#a` keeps the
directory's length at one (the channel is only disabled), and the
explicit clear operations produce the empty list. -/
theorem c9_directory_never_shrinks_witness :
    Step ⟨[⟨("#a"), true,
        [(1, ⟨("alice"), ("hostA"), true, true⟩)],
        [(1, ⟨("alice"), ("hostA"), true, true⟩)]⟩]⟩
      (Handle ⟨[⟨("#a"), true,
          [(1, ⟨("alice"), ("hostA"), true, true⟩)],
          [(1, ⟨("alice"), ("hostA"), true, true⟩)]⟩]⟩ 1
        ChannelMessageType.LeaveChannel (some ("#a")) true
        (some ⟨("alice"), ("hostA"), true, true⟩)).2.1
  ∧ (⟨[⟨("#a"), true,
        [(1, ⟨("alice"), ("hostA"), true, true⟩)],
        [(1, ⟨("alice"), ("hostA"), true, true⟩)]⟩]⟩ : ChannelComponentState).channels.length
      ≤ (Handle ⟨[⟨("#a"), true,
          [(1, ⟨("alice"), ("hostA"), true, true⟩)],
          [(1, ⟨("alice"), ("hostA"), true, true⟩)]⟩]⟩ 1
        ChannelMessageType.LeaveChannel (some ("#a")) true
        (some ⟨("alice"), ("hostA"), true, true⟩)).2.1.channels.length
  ∧ (Shutdown ⟨[⟨("#a"), true,
        [(1, ⟨("alice"), ("hostA"), true, true⟩)],
        [(1, ⟨("alice"), ("hostA"), true, true⟩)]⟩]⟩).channels = []
  ∧ (OnStop ⟨[⟨("#a"), true,
        [(1, ⟨("alice"), ("hostA"), true, true⟩)],
        [(1, ⟨("alice"), ("hostA"), true, true⟩)]⟩]⟩).channels = [] := by
  have hs : Step ⟨[⟨("#a"), true,
      [(1, ⟨("alice"), ("hostA"), true, true⟩)],
      [(1, ⟨("alice"), ("hostA"), true, true⟩)]⟩]⟩
    (Handle ⟨[⟨("#a"), true,
        [(1, ⟨("alice"), ("hostA"), true, true⟩)],
        [(1, ⟨("alice"), ("hostA"), true, true⟩)]⟩]⟩ 1
      ChannelMessageType.LeaveChannel (some ("#a")) true
      (some ⟨("alice"), ("hostA"), true, true⟩)).2.1 :=
    Step.handle _ 1 ChannelMessageType.LeaveChannel (some ("#a")) true
      (some ⟨("alice"), ("hostA"), true, true⟩)
  have h := c9_directory_never_shrinks _ _ hs
  exact ⟨hs, h.1, h.2.1, h.2.2⟩

end JChat
